import Mathlib

/-!
# Verification of the BERT fine-tuned checkpoint remapping engine

Shallow embedding of `texar/torch/modules/pretrained/bert_finetuned_classifier.py`,
specifically the `_init_from_checkpoint` method of `FineTunedBERTClassifier`:
the name resolver (skip filter, global / pooler / layer tables, layer-index
parsing), the tensor applier (shape validation, transpose, in-place write),
and the full pass over an enumerated checkpoint.

Python string operations used by the source (`str.split`, `str.join`,
`str.startswith`, `str.endswith`, slicing, `str.format`) are embedded as
structurally recursive functions over `String.data`, with Python's exact
semantics (e.g. `split` keeps empty groups, slicing is total).
-/

/-- Python `s.split(sep)` for a one-character separator, over char lists:
splits at every occurrence of `sep`, keeping empty groups. -/
def pySplit (sep : Char) : List Char → List (List Char)
  | [] => [[]]
  | c :: rest =>
    if c = sep then [] :: pySplit sep rest
    else match pySplit sep rest with
      | [] => [[c]]
      | g :: gs => (c :: g) :: gs

/-- Python `sep.join(parts)` for a one-character separator, over char lists. -/
def pyJoin (sep : Char) : List (List Char) → List Char
  | [] => []
  | [x] => x
  | x :: xs => x ++ sep :: pyJoin sep xs

/-- Python `template.format(arg)` restricted to `\x7b\x7d` holes: every
hole is replaced by `arg`.  The source's templates contain exactly one hole,
for which this coincides with `str.format` with one positional argument. -/
def pyFormat : List Char → List Char → List Char
  | [], _ => []
  | [c], _ => [c]
  | c :: d :: rest, arg =>
    if c = '\x7b' ∧ d = '\x7d' then arg ++ pyFormat rest arg
    else c :: pyFormat (d :: rest) arg

/-- Python `name.startswith(p)`. -/
def startsWithPy (s p : String) : Bool := p.data.isPrefixOf s.data

/-- Python `name.endswith(p)`. -/
def endsWithPy (s p : String) : Bool := p.data.isSuffixOf s.data

/-- Python `name.split("/")`. -/
def splitSlash (s : String) : List String := (pySplit '/' s.data).map String.mk

/-- Python `"/".join(parts)`. -/
def joinSlash (l : List String) : String := String.mk (pyJoin '/' (l.map String.data))

/-- Python `s[n:]` (total: empty result when the string is shorter). -/
def dropPy (s : String) (n : Nat) : String := String.mk (s.data.drop n)

/-- Python `template.format(arg)` on strings. -/
def formatPy (tmpl arg : String) : String := String.mk (pyFormat tmpl.data arg.data)

/-!
## Numeric arrays

Checkpoint values are numpy arrays of rank 0, 1 or 2 (the BERT tensors);
`NpArray` embeds them with integer entries.  `squeeze` is `numpy.squeeze`
(removes all size-1 axes), `npTranspose` is `numpy.transpose`.
-/

/-- A numpy array of rank at most 2, as consumed by `_init_from_checkpoint`. -/
inductive NpArray where
  | scalar (x : Int)
  | vec (xs : List Int)
  | mat (xss : List (List Int))
deriving DecidableEq, Repr

/-- `array.shape` as a list of dimensions. -/
def shape : NpArray → List Nat
  | .scalar _ => []
  | .vec xs => [xs.length]
  | .mat xss => [xss.length, (xss.headD []).length]

/-- `numpy.squeeze`: remove every axis of size 1. -/
def squeeze : NpArray → NpArray
  | .scalar x => .scalar x
  | .vec xs => if xs.length = 1 then .scalar (xs.headD 0) else .vec xs
  | .mat xss =>
    if xss.length = 1 ∧ (xss.headD []).length = 1 then
      .scalar ((xss.headD []).headD 0)
    else if xss.length = 1 then .vec (xss.headD [])
    else if (xss.headD []).length = 1 then .vec (xss.map (fun row => row.headD 0))
    else .mat xss

/-- The transpose of a rank-2 array: entry `(j, i)` of the result is entry
`(i, j)` of the argument. -/
def transposeMat (xss : List (List Int)) : List (List Int) :=
  (List.range (xss.headD []).length).map (fun j => xss.map (fun row => row.getD j 0))

/-- `numpy.transpose`: reverses the axis order (identity on rank 0 and 1). -/
def npTranspose : NpArray → NpArray
  | .scalar x => .scalar x
  | .vec xs => .vec xs
  | .mat xss => .mat (transposeMat xss)

/-- Matrix entry access with defaults, for element-wise statements. -/
def matGet (xss : List (List Int)) (i j : Nat) : Int := (xss.getD i []).getD j 0

/-- An all-zero matrix of a given shape, used to instantiate concrete inputs. -/
def zerosM (r c : Nat) : List (List Int) := List.replicate r (List.replicate c 0)

/-!
## The rule catalog (lines 77-111 of the source)

The four tables, verbatim.  `\x7b\x7d` is the `{}` hole of the Python
format templates.
-/

/-- `global_tensor_map` (source lines 77-87). -/
def global_tensor_map : List (String × String) :=
  [("bert/embeddings/word_embeddings", "word_embedder._embedding"),
   ("bert/embeddings/token_type_embeddings", "segment_embedder._embedding"),
   ("bert/embeddings/position_embeddings", "position_embedder._embedding"),
   ("bert/embeddings/LayerNorm/beta", "encoder.input_normalizer.bias"),
   ("bert/embeddings/LayerNorm/gamma", "encoder.input_normalizer.weight")]

/-- `layer_tensor_map` (source lines 88-99). -/
def layer_tensor_map : List (String × String) :=
  [("attention/self/key/bias", "self_attns.\x7b\x7d.K_dense.bias"),
   ("attention/self/query/bias", "self_attns.\x7b\x7d.Q_dense.bias"),
   ("attention/self/value/bias", "self_attns.\x7b\x7d.V_dense.bias"),
   ("attention/output/dense/bias", "self_attns.\x7b\x7d.O_dense.bias"),
   ("attention/output/LayerNorm/gamma", "poswise_layer_norm.\x7b\x7d.weight"),
   ("attention/output/LayerNorm/beta", "poswise_layer_norm.\x7b\x7d.bias"),
   ("intermediate/dense/bias", "poswise_networks.\x7b\x7d._layers.0.bias"),
   ("output/dense/bias", "poswise_networks.\x7b\x7d._layers.2.bias"),
   ("output/LayerNorm/gamma", "output_layer_norm.\x7b\x7d.weight"),
   ("output/LayerNorm/beta", "output_layer_norm.\x7b\x7d.bias")]

/-- `layer_transpose_map` (source lines 100-107). -/
def layer_transpose_map : List (String × String) :=
  [("attention/self/key/kernel", "self_attns.\x7b\x7d.K_dense.weight"),
   ("attention/self/query/kernel", "self_attns.\x7b\x7d.Q_dense.weight"),
   ("attention/self/value/kernel", "self_attns.\x7b\x7d.V_dense.weight"),
   ("attention/output/dense/kernel", "self_attns.\x7b\x7d.O_dense.weight"),
   ("intermediate/dense/kernel", "poswise_networks.\x7b\x7d._layers.0.weight"),
   ("output/dense/kernel", "poswise_networks.\x7b\x7d._layers.2.weight")]

/-- `pooler_map` (source lines 108-111). -/
def pooler_map : List (String × String) :=
  [("bert/pooler/dense/bias", "pooler.0.bias"),
   ("bert/pooler/dense/kernel", "pooler.0.weight")]

/-!
## The name resolver (lines 125-168 of the source)

The loop body's control flow on the name alone: skip filter, exact global
and pooler lookups, then the layer branch that indexes `name.split("/")[2]`,
takes its characters from position 6 (`[6:]`), joins the segments from the
fourth onward and looks the result up in the two layer tables.
-/

/-- The per-entry transform: direct assignment or `numpy.transpose` first. -/
inductive Transform where
  | identity
  | transposed
deriving DecidableEq, Repr

/-- Outcome of resolving one source name.  `indexOOR` is Python's
`IndexError` raised by `name.split("/")[2]` on a name with fewer than three
segments; `unresolved` is the `NameError` of source line 168, carrying the
offending name exactly as the exception message does. -/
inductive Resolution where
  | skip
  | assign (path : String) (t : Transform)
  | indexOOR
  | unresolved (name : String)
deriving DecidableEq, Repr

/-- The skip filter of source lines 126-127. -/
def skipName (name : String) : Bool :=
  startsWithPy name "cls" || name == "global_step"
    || endsWithPy name "adam_m" || endsWithPy name "adam_v"

/-- Name resolution: the control flow of source lines 125-168 restricted to
what depends on the name. -/
def resolve (name : String) : Resolution :=
  if skipName name then .skip
  else
    match List.lookup name global_tensor_map with
    | some v => .assign v .identity
    | none =>
      match List.lookup name pooler_map with
      | some v =>
        if endsWithPy name "bias" then .assign v .identity
        else .assign v .transposed
      | none =>
        match (splitSlash name)[2]? with
        | none => .indexOOR
        | some seg =>
          let layer_no := dropPy seg 6
          let suffix := joinSlash ((splitSlash name).drop 3)
          match List.lookup suffix layer_tensor_map with
          | some tmpl => .assign ("encoder." ++ formatPy tmpl layer_no) .identity
          | none =>
            match List.lookup suffix layer_transpose_map with
            | some tmpl => .assign ("encoder." ++ formatPy tmpl layer_no) .transposed
            | none => .unresolved name

/-- Resolver variant that consults the pooler table before the global table,
used to state that table-entry resolution is independent of the order in
which the two exact-match tables are consulted. -/
def resolvePoolerFirst (name : String) : Resolution :=
  if skipName name then .skip
  else
    match List.lookup name pooler_map with
    | some v =>
      if endsWithPy name "bias" then .assign v .identity
      else .assign v .transposed
    | none =>
      match List.lookup name global_tensor_map with
      | some v => .assign v .identity
      | none =>
        match (splitSlash name)[2]? with
        | none => .indexOOR
        | some seg =>
          let layer_no := dropPy seg 6
          let suffix := joinSlash ((splitSlash name).drop 3)
          match List.lookup suffix layer_tensor_map with
          | some tmpl => .assign ("encoder." ++ formatPy tmpl layer_no) .identity
          | none =>
            match List.lookup suffix layer_transpose_map with
            | some tmpl => .assign ("encoder." ++ formatPy tmpl layer_no) .transposed
            | none => .unresolved name

/-!
## The tensor applier and the full pass (lines 116-169 of the source)

The target parameter tree is an association list from dotted paths to
parameter values.  Lookup of a dotted path models `self._name_to_variable`.
Modelled from the spec: `_name_to_variable` itself is repository code
outside this file; per the spec it is "look up parameter by dotted path",
failing when the path does not exist (`PathNotFound`).
-/

/-- The target model's parameter tree: dotted path to current value. -/
abbrev PTree := List (String × NpArray)

/-- Fatal outcomes of the pass, in the spec's error vocabulary:
`shapeMismatch` is the failed `assert` of lines 136/142/147/159/165,
`unresolvedName` the `NameError` of line 168, `indexOOR` the `IndexError`
of line 154, `pathNotFound` the failed parameter lookup. -/
inductive PassError where
  | unresolvedName (name : String)
  | indexOOR
  | pathNotFound (path : String)
  | shapeMismatch
deriving DecidableEq, Repr

deriving instance DecidableEq for Except

/-- Apply a transform to a source array (`numpy.transpose` or nothing). -/
def applyTransform : Transform → NpArray → NpArray
  | .identity, a => a
  | .transposed, a => npTranspose a

/-- Overwrite the parameter at `path` with `a` (`pointer.data = ...`). -/
def updateTree (tree : PTree) (path : String) (a : NpArray) : PTree :=
  List.map (fun e => if e.1 == path then (e.1, a) else e) tree

/-- One iteration of the loop of source lines 125-169 for a (name, array)
pair whose array has already been squeezed: resolve the name; on `skip` do
nothing; otherwise look up the target parameter, transform the array,
compare shapes (the `assert`), and only then overwrite the parameter. -/
def applyOne (tree : PTree) (name : String) (arr : NpArray) : Except PassError PTree :=
  match resolve name with
  | .skip => .ok tree
  | .indexOOR => .error .indexOOR
  | .unresolved n => .error (.unresolvedName n)
  | .assign path t =>
    match List.lookup path tree with
    | none => .error (.pathNotFound path)
    | some p =>
      let a := applyTransform t arr
      if shape a = shape p then .ok (updateTree tree path a)
      else .error .shapeMismatch

/-- The full pass of `_init_from_checkpoint` (lines 116-169): every loaded
array is squeezed (line 121), then the loop processes the (name, array)
pairs in enumeration order, stopping at the first fatal error. -/
def init_from_checkpoint (ckpt : List (String × NpArray)) (tree : PTree) :
    Except PassError PTree :=
  (ckpt.map (fun e => (e.1, squeeze e.2))).foldlM
    (fun tr e => applyOne tr e.1 e.2) tree

/-!
## Basic lemmas
-/

/-- Evaluation: squeezing a vector of length 1 gives a scalar. -/
theorem squeeze_vec_one (xs : List Int) (h : xs.length = 1) :
    squeeze (.vec xs) = .scalar (xs.headD 0) := by
  simp only [squeeze]; rw [if_pos h]

/-- Evaluation: squeezing a vector of length other than 1 is the identity. -/
theorem squeeze_vec_id (xs : List Int) (h : xs.length ≠ 1) :
    squeeze (.vec xs) = .vec xs := by
  simp only [squeeze]; rw [if_neg h]

/-- Evaluation: squeezing a 1-by-1 matrix gives a scalar. -/
theorem squeeze_mat_scalar (xss : List (List Int)) (h1 : xss.length = 1)
    (h2 : (xss.headD []).length = 1) :
    squeeze (.mat xss) = .scalar ((xss.headD []).headD 0) := by
  simp only [squeeze]; rw [if_pos (And.intro h1 h2)]

/-- Evaluation: squeezing a 1-row matrix gives its row. -/
theorem squeeze_mat_row (xss : List (List Int)) (h1 : xss.length = 1)
    (h2 : (xss.headD []).length ≠ 1) :
    squeeze (.mat xss) = .vec (xss.headD []) := by
  simp only [squeeze]
  rw [if_neg (fun hc => h2 hc.2), if_pos h1]

/-- Evaluation: squeezing a 1-column matrix gives the column. -/
theorem squeeze_mat_col (xss : List (List Int)) (h1 : xss.length ≠ 1)
    (h2 : (xss.headD []).length = 1) :
    squeeze (.mat xss) = .vec (xss.map (fun row => row.headD 0)) := by
  simp only [squeeze]
  rw [if_neg (fun hc => h1 hc.1), if_neg h1, if_pos h2]

/-- Evaluation: squeezing a matrix with no size-1 axis is the identity. -/
theorem squeeze_mat_id (xss : List (List Int)) (h1 : xss.length ≠ 1)
    (h2 : (xss.headD []).length ≠ 1) :
    squeeze (.mat xss) = .mat xss := by
  simp only [squeeze]
  rw [if_neg (fun hc => h1 hc.1), if_neg h1, if_neg h2]

/-- `numpy.squeeze` is idempotent: a squeezed array has no size-1 axes left. -/
theorem squeeze_squeeze (a : NpArray) : squeeze (squeeze a) = squeeze a := by
  cases a with
  | scalar x => rfl
  | vec xs =>
    by_cases h : xs.length = 1
    · rw [squeeze_vec_one xs h]; rfl
    · rw [squeeze_vec_id xs h, squeeze_vec_id xs h]
  | mat xss =>
    by_cases h1 : xss.length = 1
    · by_cases h2 : (xss.headD []).length = 1
      · rw [squeeze_mat_scalar xss h1 h2]; rfl
      · rw [squeeze_mat_row xss h1 h2, squeeze_vec_id _ h2]
    · by_cases h2 : (xss.headD []).length = 1
      · rw [squeeze_mat_col xss h1 h2, squeeze_vec_id]
        simpa using h1
      · rw [squeeze_mat_id xss h1 h2, squeeze_mat_id xss h1 h2]

/-!
## Claim theorems
-/

/-- C10: every source array is squeezed immediately after loading and before
any resolution, shape validation or assignment.  First conjunct: the pass is
invariant under pre-squeezing the checkpoint, so only the squeezed array
(never the shape stored in the checkpoint) can influence resolution, the
shape comparison, or the assigned value.  Second conjunct: processing one
entry is exactly the applier run on the squeezed array, whose shape check
compares `shape (applyTransform t (squeeze arr))` with the target shape. -/
theorem squeeze_before_resolution (ckpt : List (String × NpArray)) (tree : PTree)
    (name : String) (arr : NpArray) :
    init_from_checkpoint (ckpt.map (fun e => (e.1, squeeze e.2))) tree
      = init_from_checkpoint ckpt tree ∧
    init_from_checkpoint [(name, arr)] tree = applyOne tree name (squeeze arr) := by
  constructor
  · unfold init_from_checkpoint
    rw [List.map_map]
    congr 1
    apply List.map_congr_left
    intro e _
    simp [squeeze_squeeze]
  · simp [init_from_checkpoint, List.foldlM]

/-- C2: every name accepted by the skip filter (starts with `cls`, equals
`global_step`, or ends with `adam_m`/`adam_v`) resolves to `skip`, and the
pass performs no assignment and raises no error for it.  The statement is
universal over all such names, including any that would also match a mapping
table, so the skip filter takes precedence over every table match. -/
theorem skip_filter_precedence (name : String) (h : skipName name = true) :
    resolve name = .skip ∧
    ∀ (tree : PTree) (arr : NpArray), applyOne tree name arr = .ok tree := by
  have hr : resolve name = .skip := by unfold resolve; rw [h]; rfl
  exact ⟨hr, fun tree arr => by unfold applyOne; rw [hr]⟩

/-- Witness for C2 at the concrete skipped name `global_step`. -/
theorem skip_filter_precedence_witness :
    skipName "global_step" = true ∧ resolve "global_step" = Resolution.skip ∧
    applyOne [("pooler.0.bias", NpArray.vec [0])] "global_step" (NpArray.scalar 7)
      = .ok [("pooler.0.bias", NpArray.vec [0])] :=
  ⟨by decide, (skip_filter_precedence "global_step" (by decide)).1,
    (skip_filter_precedence "global_step" (by decide)).2 _ _⟩

/-- C3: every (source name, target path) pair of the Global and Pooler
tables resolves to `assign` at that target with the table's fixed transform:
identity for all Global entries and for the Pooler bias, transpose for the
Pooler kernel — and the result is the same whether the global table is
consulted before the pooler table (`resolve`, as in the source) or after it
(`resolvePoolerFirst`). -/
theorem table_entries_resolve (s t : String) :
    ((s, t) ∈ global_tensor_map →
      resolve s = .assign t .identity ∧ resolvePoolerFirst s = .assign t .identity) ∧
    ((s, t) ∈ pooler_map →
      ((s = "bert/pooler/dense/bias" ∧ t = "pooler.0.bias" ∧
        resolve s = .assign t .identity ∧ resolvePoolerFirst s = .assign t .identity) ∨
       (s = "bert/pooler/dense/kernel" ∧ t = "pooler.0.weight" ∧
        resolve s = .assign t .transposed ∧ resolvePoolerFirst s = .assign t .transposed))) := by
  constructor
  · intro h
    simp only [global_tensor_map, List.mem_cons, List.not_mem_nil, or_false, Prod.mk.injEq] at h
    rcases h with ⟨rfl, rfl⟩ | ⟨rfl, rfl⟩ | ⟨rfl, rfl⟩ | ⟨rfl, rfl⟩ | ⟨rfl, rfl⟩ <;>
      exact ⟨by decide, by decide⟩
  · intro h
    simp only [pooler_map, List.mem_cons, List.not_mem_nil, or_false, Prod.mk.injEq] at h
    rcases h with ⟨rfl, rfl⟩ | ⟨rfl, rfl⟩
    · exact Or.inl ⟨rfl, rfl, by decide, by decide⟩
    · exact Or.inr ⟨rfl, rfl, by decide, by decide⟩

/-- Witness for C3 at a Global entry and at the Pooler kernel entry. -/
theorem table_entries_resolve_witness :
    (("bert/embeddings/word_embeddings", "word_embedder._embedding") ∈ global_tensor_map ∧
      resolve "bert/embeddings/word_embeddings" = .assign "word_embedder._embedding" .identity) ∧
    (("bert/pooler/dense/kernel", "pooler.0.weight") ∈ pooler_map ∧
      resolve "bert/pooler/dense/kernel" = .assign "pooler.0.weight" .transposed) := by
  refine ⟨⟨by decide, ((table_entries_resolve _ _).1 (by decide)).1⟩, ⟨by decide, ?_⟩⟩
  rcases (table_entries_resolve "bert/pooler/dense/kernel" "pooler.0.weight").2 (by decide) with h | h
  · exact absurd h.1 (by decide)
  · exact h.2.2.1

/-- C6: if the (possibly transposed) source array's shape differs from the
resolved destination parameter's shape, the applier fails with the
ShapeMismatch error (the source's `assert`).  The error carries no updated
tree, and in the source the `assert` precedes the `pointer.data` write, so
the destination parameter is left unchanged — no partial overwrite, reshape
or broadcast. -/
theorem shape_mismatch_fatal (tree : PTree) (name : String) (arr : NpArray)
    (path : String) (t : Transform) (p : NpArray)
    (hres : resolve name = .assign path t)
    (hlook : List.lookup path tree = some p)
    (hmis : shape (applyTransform t arr) ≠ shape p) :
    applyOne tree name arr = .error .shapeMismatch := by
  simp [applyOne, hres, hlook, hmis]

/-- Witness for C6: a 2-by-2 kernel against a 1-by-1 destination. -/
theorem shape_mismatch_fatal_witness :
    applyOne [("pooler.0.weight", NpArray.mat [[0]])] "bert/pooler/dense/kernel"
        (NpArray.mat [[1, 2], [3, 4]]) = .error .shapeMismatch :=
  shape_mismatch_fatal _ _ _ "pooler.0.weight" .transposed (NpArray.mat [[0]])
    (by decide) (by decide) (by decide)

/-- C7 counterexample: `foo/bar` matches no skip rule and no mapping rule
(it has no third `/`-segment, so no layer rule can apply), yet the resolver
does not produce the unresolved-name error: it fails with the index error of
`name.split("/")[2]` instead, and so does the pass. -/
theorem unresolved_name_counterexample :
    skipName "foo/bar" = false ∧
    List.lookup "foo/bar" global_tensor_map = none ∧
    List.lookup "foo/bar" pooler_map = none ∧
    (splitSlash "foo/bar")[2]? = none ∧
    resolve "foo/bar" ≠ .unresolved "foo/bar" ∧
    resolve "foo/bar" = .indexOOR ∧
    applyOne [] "foo/bar" (.scalar 0) = .error .indexOOR := by decide

/-- C7 amended: every source name with at least three `/`-segments that
matches no skip rule and no mapping rule fails with the fatal
unresolved-name error carrying the offending name (the `NameError` of
source line 168); the pass reports it and never silently drops the name. -/
theorem unresolved_name_fatal (name seg : String)
    (hskip : skipName name = false)
    (hg : List.lookup name global_tensor_map = none)
    (hp : List.lookup name pooler_map = none)
    (hseg : (splitSlash name)[2]? = some seg)
    (ht : List.lookup (joinSlash ((splitSlash name).drop 3)) layer_tensor_map = none)
    (htt : List.lookup (joinSlash ((splitSlash name).drop 3)) layer_transpose_map = none) :
    resolve name = .unresolved name ∧
    ∀ (tree : PTree) (arr : NpArray), applyOne tree name arr = .error (.unresolvedName name) := by
  have hr : resolve name = .unresolved name := by
    simp [resolve, hskip, hg, hp, hseg, ht, htt]
  exact ⟨hr, fun tree arr => by simp [applyOne, hr]⟩

/-- Witness for the amended C7 at the concrete unmatched name `a/b/c`. -/
theorem unresolved_name_fatal_witness :
    resolve "a/b/c" = .unresolved "a/b/c" ∧
    applyOne [] "a/b/c" (.scalar 0) = .error (.unresolvedName "a/b/c") :=
  ⟨(unresolved_name_fatal "a/b/c" "c" (by decide) (by decide) (by decide) (by decide)
      (by decide) (by decide)).1,
   (unresolved_name_fatal "a/b/c" "c" (by decide) (by decide) (by decide) (by decide)
      (by decide) (by decide)).2 [] (.scalar 0)⟩

/-- C8 counterexample: the non-skipped, table-free name `x` has no third
`/`-segment, and resolution fails with the index error of
`name.split("/")[2]` — a crash distinct from the unresolved-name error — so
resolution is not total with UnresolvedName as its only failure mode. -/
theorem parse_failure_counterexample :
    skipName "x" = false ∧
    List.lookup "x" global_tensor_map = none ∧
    List.lookup "x" pooler_map = none ∧
    resolve "x" = .indexOOR ∧
    resolve "x" ≠ .unresolved "x" ∧
    applyOne [] "x" (.scalar 0) = .error .indexOOR := by decide

/-- C8 amended: for a non-skipped name matching neither exact table, the
resolver crashes with the index error exactly when the name has no third
`/`-segment; when a third segment exists it never crashes — the outcome is
an assignment or the unresolved-name error.  (No numeric validation of the
layer segment occurs: the characters after position 6 are substituted
as-is, as `parse_failure_modes` shows through the assignment case.) -/
theorem parse_failure_modes (name seg : String)
    (hskip : skipName name = false)
    (hg : List.lookup name global_tensor_map = none)
    (hp : List.lookup name pooler_map = none) :
    ((splitSlash name)[2]? = none → resolve name = .indexOOR) ∧
    ((splitSlash name)[2]? = some seg →
      resolve name ≠ .indexOOR ∧
      ((∃ path t, resolve name = .assign path t) ∨ resolve name = .unresolved name)) := by
  constructor
  · intro h2
    simp [resolve, hskip, hg, hp, h2]
  · intro h2
    have hform :
        (∃ path t, resolve name = .assign path t) ∨ resolve name = .unresolved name := by
      rcases hl : List.lookup (joinSlash ((splitSlash name).drop 3)) layer_tensor_map
        with _ | tmpl
      · rcases hl2 : List.lookup (joinSlash ((splitSlash name).drop 3)) layer_transpose_map
          with _ | tmpl
        · right; simp [resolve, hskip, hg, hp, h2, hl, hl2]
        · left
          exact ⟨"encoder." ++ formatPy tmpl (dropPy seg 6), .transposed,
            by simp [resolve, hskip, hg, hp, h2, hl, hl2]⟩
      · left
        exact ⟨"encoder." ++ formatPy tmpl (dropPy seg 6), .identity,
          by simp [resolve, hskip, hg, hp, h2, hl]⟩
    refine ⟨?_, hform⟩
    rcases hform with ⟨path, t, h⟩ | h <;> simp [h]

/-- Witness for the amended C8: the crash case at `x` and the no-crash case
at `a/b/c`. -/
theorem parse_failure_modes_witness :
    resolve "x" = .indexOOR ∧ resolve "a/b/c" ≠ .indexOOR :=
  ⟨(parse_failure_modes "x" "" (by decide) (by decide) (by decide)).1 (by decide),
   ((parse_failure_modes "a/b/c" "c" (by decide) (by decide) (by decide)).2 (by decide)).1⟩

/-- C9 counterexample: two distinct non-skipped source names that differ
only in their first two `/`-segments resolve to the same target path, so
the resolution mapping is not injective into target paths; a full pass over
a checkpoint containing both (distinct) names assigns that target twice,
the second write overwriting the first. -/
theorem target_collision_counterexample :
    ("bert/encoder/layer_0/output/dense/bias" : String) ≠ "z/z/layer_0/output/dense/bias" ∧
    skipName "bert/encoder/layer_0/output/dense/bias" = false ∧
    skipName "z/z/layer_0/output/dense/bias" = false ∧
    resolve "bert/encoder/layer_0/output/dense/bias"
      = .assign "encoder.poswise_networks.0._layers.2.bias" .identity ∧
    resolve "z/z/layer_0/output/dense/bias"
      = .assign "encoder.poswise_networks.0._layers.2.bias" .identity ∧
    init_from_checkpoint
      [("bert/encoder/layer_0/output/dense/bias", .vec [1, 2]),
       ("z/z/layer_0/output/dense/bias", .vec [3, 4])]
      [("encoder.poswise_networks.0._layers.2.bias", .vec [0, 0])]
      = .ok [("encoder.poswise_networks.0._layers.2.bias", .vec [3, 4])] := by decide

/-- Python slicing `("layer_" + idx)[6:]` recovers `idx`: position 6 is the
length of `layer_`, so the source's `name_tmp[2][6:]` is exactly the
characters of the third segment after `layer_`. -/
theorem dropPy_layer (idx : String) : dropPy ("layer_" ++ idx) 6 = idx := by
  unfold dropPy
  have h : ("layer_" ++ idx).data = "layer_".data ++ idx.data := rfl
  have h6 : ("layer_" : String).data.length = 6 := rfl
  rw [h, ← h6, List.drop_left]

/-- C4: a non-skipped name matching neither exact table is split at `/`;
with its third segment of the form `layer_` followed by the index, the
index is the characters after `layer_`, the suffix is the `/`-join of the
segments from the fourth onward, and a suffix found in the plain layer
table (resp. the transpose layer table, consulted second) yields an
assignment to the template with the index substituted and `encoder.`
prepended, with the identity (resp. transpose) transform. -/
theorem layer_lookup_resolution (name idx : String)
    (hskip : skipName name = false)
    (hg : List.lookup name global_tensor_map = none)
    (hp : List.lookup name pooler_map = none)
    (hseg : (splitSlash name)[2]? = some ("layer_" ++ idx)) :
    (∀ tmpl, List.lookup (joinSlash ((splitSlash name).drop 3)) layer_tensor_map = some tmpl →
      resolve name = .assign ("encoder." ++ formatPy tmpl idx) .identity) ∧
    (List.lookup (joinSlash ((splitSlash name).drop 3)) layer_tensor_map = none →
      ∀ tmpl, List.lookup (joinSlash ((splitSlash name).drop 3)) layer_transpose_map = some tmpl →
      resolve name = .assign ("encoder." ++ formatPy tmpl idx) .transposed) := by
  constructor
  · intro tmpl ht
    simp [resolve, hskip, hg, hp, hseg, ht, dropPy_layer]
  · intro ht tmpl htt
    simp [resolve, hskip, hg, hp, hseg, ht, htt, dropPy_layer]

/-- Witness for C4 at a plain-table name (layer 3) and a transpose-table
name (layer 11). -/
theorem layer_lookup_resolution_witness :
    resolve "bert/encoder/layer_3/attention/self/key/bias"
      = .assign ("encoder." ++ formatPy "self_attns.\x7b\x7d.K_dense.bias" "3") .identity ∧
    resolve "bert/encoder/layer_11/attention/self/query/kernel"
      = .assign ("encoder." ++ formatPy "self_attns.\x7b\x7d.Q_dense.weight" "11") .transposed :=
  ⟨(layer_lookup_resolution "bert/encoder/layer_3/attention/self/key/bias" "3"
      (by decide) (by decide) (by decide) (by decide)).1
      "self_attns.\x7b\x7d.K_dense.bias" (by decide),
   (layer_lookup_resolution "bert/encoder/layer_11/attention/self/query/kernel" "11"
      (by decide) (by decide) (by decide) (by decide)).2 (by decide)
      "self_attns.\x7b\x7d.Q_dense.weight" (by decide)⟩

/-- The shape of the transpose of a matrix whose first row is nonempty. -/
theorem shape_transposeMat (xss : List (List Int))
    (hb : (xss.headD []).length ≠ 0) :
    shape (.mat (transposeMat xss)) = [(xss.headD []).length, xss.length] := by
  obtain ⟨m, hm⟩ : ∃ m, (xss.headD []).length = m + 1 :=
    ⟨(xss.headD []).length - 1, (Nat.succ_pred_eq_of_pos (Nat.pos_of_ne_zero hb)).symm⟩
  unfold shape transposeMat
  rw [hm, List.range_succ_eq_map]
  simp

/-- Element-wise content of `transposeMat` on a rectangular matrix: entry
`(j, i)` of the transpose is entry `(i, j)` of the source. -/
theorem transposeMat_get (xss : List (List Int)) (b : Nat)
    (hrect : ∀ row ∈ xss, row.length = b) (i j : Nat)
    (hi : i < xss.length) (hj : j < b) :
    matGet (transposeMat xss) j i = matGet xss i j := by
  have hne : xss ≠ [] := by
    intro h
    rw [h] at hi
    simp at hi
  have hc : (xss.headD []).length = b := by
    cases xss with
    | nil => exact absurd rfl hne
    | cons y ys => exact hrect y (by simp)
  unfold matGet transposeMat
  rw [hc]
  have hjlen : j < ((List.range b).map (fun j => xss.map (fun row => row.getD j 0))).length := by
    simpa using hj
  rw [List.getD_eq_getElem _ _ hjlen, List.getElem_map]
  simp only [List.getElem_range]
  have hilen : i < (xss.map (fun row => row.getD j 0)).length := by
    simpa using hi
  rw [List.getD_eq_getElem _ _ hilen, List.getElem_map, List.getD_eq_getElem _ _ hi]

/-- C5: an assignment through a transpose-tagged mapping of an `a`-by-`b`
source stores exactly `transposeMat xss` in the destination, and that array
is the element-wise transpose: entry `(j, i)` of the stored array equals
entry `(i, j)` of the source for all `i < a`, `j < b` — not merely a
shape-compatible array. -/
theorem transpose_assignment_elementwise (tree : PTree) (name path : String)
    (xss : List (List Int)) (a b : Nat) (p : NpArray)
    (hres : resolve name = .assign path .transposed)
    (hlen : xss.length = a)
    (hrect : ∀ row ∈ xss, row.length = b)
    (ha : 0 < a) (hb : 0 < b)
    (hlook : List.lookup path tree = some p)
    (hshape : shape p = [b, a]) :
    applyOne tree name (.mat xss) = .ok (updateTree tree path (.mat (transposeMat xss))) ∧
    ∀ i j, i < a → j < b → matGet (transposeMat xss) j i = matGet xss i j := by
  have hne : xss ≠ [] := by
    intro h
    subst h
    simp at hlen
    omega
  have hhead : (xss.headD []).length = b := by
    cases xss with
    | nil => exact absurd rfl hne
    | cons y ys => exact hrect y (by simp)
  have hsh : shape (NpArray.mat (transposeMat xss)) = shape p := by
    rw [shape_transposeMat xss (by rw [hhead]; omega), hshape, hhead, hlen]
  constructor
  · simp [applyOne, hres, hlook, applyTransform, npTranspose, hsh]
  · intro i j hi hj
    exact transposeMat_get xss b hrect i j (by rw [hlen]; exact hi) hj

/-- Witness for C5: the 2-by-3 pooler kernel `[[1,2,3],[4,5,6]]` against a
3-by-2 destination, with the element-wise check at entry `(2, 1)`. -/
theorem transpose_assignment_elementwise_witness :
    applyOne [("pooler.0.weight", NpArray.mat (zerosM 3 2))] "bert/pooler/dense/kernel"
        (NpArray.mat [[1, 2, 3], [4, 5, 6]])
      = .ok (updateTree [("pooler.0.weight", NpArray.mat (zerosM 3 2))] "pooler.0.weight"
          (NpArray.mat (transposeMat [[1, 2, 3], [4, 5, 6]]))) ∧
    matGet (transposeMat [[1, 2, 3], [4, 5, 6]]) 2 1 = matGet [[1, 2, 3], [4, 5, 6]] 1 2 := by
  have h := transpose_assignment_elementwise
    [("pooler.0.weight", NpArray.mat (zerosM 3 2))] "bert/pooler/dense/kernel" "pooler.0.weight"
    [[1, 2, 3], [4, 5, 6]] 2 3 (NpArray.mat (zerosM 3 2))
    (by decide) (by decide) (by decide) (by decide) (by decide) (by decide) (by decide)
  exact ⟨h.1, h.2 1 2 (by decide) (by decide)⟩

/-- Unrolling of the full pass over a four-entry checkpoint into its four
per-entry steps (the arrays being squeezed at load time). -/
theorem init4_steps (n1 n2 n3 n4 : String) (a1 a2 a3 a4 : NpArray)
    (t0 t1 t2 t3 t4 : PTree)
    (h1 : applyOne t0 n1 (squeeze a1) = .ok t1)
    (h2 : applyOne t1 n2 (squeeze a2) = .ok t2)
    (h3 : applyOne t2 n3 (squeeze a3) = .ok t3)
    (h4 : applyOne t3 n4 (squeeze a4) = .ok t4) :
    init_from_checkpoint [(n1, a1), (n2, a2), (n3, a3), (n4, a4)] t0 = .ok t4 := by
  show (applyOne t0 n1 (squeeze a1) >>= fun t => applyOne t n2 (squeeze a2) >>=
      fun t => applyOne t n3 (squeeze a3) >>= fun t => applyOne t n4 (squeeze a4) >>=
      fun t => pure t) = .ok t4
  rw [h1]
  show (applyOne t1 n2 (squeeze a2) >>= fun t => applyOne t n3 (squeeze a3) >>=
      fun t => applyOne t n4 (squeeze a4) >>= fun t => pure t) = .ok t4
  rw [h2]
  show (applyOne t2 n3 (squeeze a3) >>= fun t => applyOne t n4 (squeeze a4) >>=
      fun t => pure t) = .ok t4
  rw [h3]
  show (applyOne t3 n4 (squeeze a4) >>= fun t => pure t) = .ok t4
  rw [h4]
  rfl

/-- C1: the end-to-end scenario.  A checkpoint with the four entries
`bert/embeddings/word_embeddings` (30522 by 768),
`bert/encoder/layer_0/attention/self/query/kernel` (768 by 768),
`bert/pooler/dense/kernel` (768 by 768) and a scalar `global_step`, run
against a target tree with matching parameter shapes, skips `global_step`,
assigns the word embeddings unchanged to `word_embedder._embedding`, the
query kernel transposed into `encoder.self_attns.0.Q_dense.weight`, and the
pooler kernel transposed into `pooler.0.weight`. -/
theorem end_to_end_pass (ws qs ps : List (List Int)) (x : Int) (w0 q0 p0 : NpArray)
    (hws : shape (.mat ws) = [30522, 768])
    (hqs : shape (.mat qs) = [768, 768])
    (hps : shape (.mat ps) = [768, 768])
    (hw0 : shape w0 = [30522, 768])
    (hq0 : shape q0 = [768, 768])
    (hp0 : shape p0 = [768, 768]) :
    init_from_checkpoint
      [("bert/embeddings/word_embeddings", .mat ws),
       ("bert/encoder/layer_0/attention/self/query/kernel", .mat qs),
       ("bert/pooler/dense/kernel", .mat ps),
       ("global_step", .scalar x)]
      [("word_embedder._embedding", w0),
       ("encoder.self_attns.0.Q_dense.weight", q0),
       ("pooler.0.weight", p0)]
    = .ok
      [("word_embedder._embedding", .mat ws),
       ("encoder.self_attns.0.Q_dense.weight", .mat (transposeMat qs)),
       ("pooler.0.weight", .mat (transposeMat ps))] := by
  obtain ⟨hwl, hwh⟩ : ws.length = 30522 ∧ (ws.headD []).length = 768 := by
    simpa [shape] using hws
  obtain ⟨hql, hqh⟩ : qs.length = 768 ∧ (qs.headD []).length = 768 := by
    simpa [shape] using hqs
  obtain ⟨hpl, hph⟩ : ps.length = 768 ∧ (ps.headD []).length = 768 := by
    simpa [shape] using hps
  have hsq1 : squeeze (.mat ws) = .mat ws := squeeze_mat_id ws (by omega) (by omega)
  have hsq2 : squeeze (.mat qs) = .mat qs := squeeze_mat_id qs (by omega) (by omega)
  have hsq3 : squeeze (.mat ps) = .mat ps := squeeze_mat_id ps (by omega) (by omega)
  have hqt : shape (NpArray.mat (transposeMat qs)) = [768, 768] := by
    rw [shape_transposeMat qs (by omega), hqh, hql]
  have hpt : shape (NpArray.mat (transposeMat ps)) = [768, 768] := by
    rw [shape_transposeMat ps (by omega), hph, hpl]
  have s1 : applyOne
      [("word_embedder._embedding", w0),
       ("encoder.self_attns.0.Q_dense.weight", q0),
       ("pooler.0.weight", p0)]
      "bert/embeddings/word_embeddings" (squeeze (.mat ws))
      = .ok
      [("word_embedder._embedding", .mat ws),
       ("encoder.self_attns.0.Q_dense.weight", q0),
       ("pooler.0.weight", p0)] := by
    rw [hsq1]
    simp [applyOne,
      (by decide : resolve "bert/embeddings/word_embeddings"
        = .assign "word_embedder._embedding" .identity),
      List.lookup, applyTransform, updateTree, hws, hw0]
  have s2 : applyOne
      [("word_embedder._embedding", .mat ws),
       ("encoder.self_attns.0.Q_dense.weight", q0),
       ("pooler.0.weight", p0)]
      "bert/encoder/layer_0/attention/self/query/kernel" (squeeze (.mat qs))
      = .ok
      [("word_embedder._embedding", .mat ws),
       ("encoder.self_attns.0.Q_dense.weight", .mat (transposeMat qs)),
       ("pooler.0.weight", p0)] := by
    rw [hsq2]
    simp [applyOne,
      (by decide : resolve "bert/encoder/layer_0/attention/self/query/kernel"
        = .assign "encoder.self_attns.0.Q_dense.weight" .transposed),
      List.lookup, applyTransform, npTranspose, updateTree, hqt, hq0]
  have s3 : applyOne
      [("word_embedder._embedding", .mat ws),
       ("encoder.self_attns.0.Q_dense.weight", .mat (transposeMat qs)),
       ("pooler.0.weight", p0)]
      "bert/pooler/dense/kernel" (squeeze (.mat ps))
      = .ok
      [("word_embedder._embedding", .mat ws),
       ("encoder.self_attns.0.Q_dense.weight", .mat (transposeMat qs)),
       ("pooler.0.weight", .mat (transposeMat ps))] := by
    rw [hsq3]
    simp [applyOne,
      (by decide : resolve "bert/pooler/dense/kernel"
        = .assign "pooler.0.weight" .transposed),
      List.lookup, applyTransform, npTranspose, updateTree, hpt, hp0]
  have s4 : applyOne
      [("word_embedder._embedding", .mat ws),
       ("encoder.self_attns.0.Q_dense.weight", .mat (transposeMat qs)),
       ("pooler.0.weight", .mat (transposeMat ps))]
      "global_step" (squeeze (.scalar x))
      = .ok
      [("word_embedder._embedding", .mat ws),
       ("encoder.self_attns.0.Q_dense.weight", .mat (transposeMat qs)),
       ("pooler.0.weight", .mat (transposeMat ps))] := by
    simp [applyOne, (by decide : resolve "global_step" = Resolution.skip)]
  exact init4_steps _ _ _ _ _ _ _ _ _ _ _ _ _ s1 s2 s3 s4

/-- The shape of the all-zero matrix. -/
theorem shape_zerosM (r c : Nat) (hr : 0 < r) : shape (.mat (zerosM r c)) = [r, c] := by
  unfold shape zerosM
  cases r with
  | zero => omega
  | succ n => simp [List.replicate_succ]

/-- Witness for C1: the scenario at all-zero arrays of the stated shapes. -/
theorem end_to_end_pass_witness :
    init_from_checkpoint
      [("bert/embeddings/word_embeddings", .mat (zerosM 30522 768)),
       ("bert/encoder/layer_0/attention/self/query/kernel", .mat (zerosM 768 768)),
       ("bert/pooler/dense/kernel", .mat (zerosM 768 768)),
       ("global_step", .scalar 0)]
      [("word_embedder._embedding", .mat (zerosM 30522 768)),
       ("encoder.self_attns.0.Q_dense.weight", .mat (zerosM 768 768)),
       ("pooler.0.weight", .mat (zerosM 768 768))]
    = .ok
      [("word_embedder._embedding", .mat (zerosM 30522 768)),
       ("encoder.self_attns.0.Q_dense.weight", .mat (transposeMat (zerosM 768 768))),
       ("pooler.0.weight", .mat (transposeMat (zerosM 768 768)))] :=
  end_to_end_pass _ _ _ 0 _ _ _
    (shape_zerosM 30522 768 (by norm_num)) (shape_zerosM 768 768 (by norm_num))
    (shape_zerosM 768 768 (by norm_num)) (shape_zerosM 30522 768 (by norm_num))
    (shape_zerosM 768 768 (by norm_num)) (shape_zerosM 768 768 (by norm_num))

/-!
## Injectivity analysis of the resolution mapping (for C9)

String-level toolkit: `frontPartB` is a Boolean prefix test on char lists,
`preHole`/`postHole` split a format template at its `\x7b\x7d` hole, and
`rendered T i` is the char-list form of the layer target path
`encoder.` + (template with the hole filled by `i`).  Distinct templates
produce provably distinct rendered paths (`rendered_ne`), a fixed global or
pooler target never equals a rendered path (`fixed_ne_rendered`), and a
template's rendering is injective in the index (`rendered_inj_same`).
-/

theorem strExt (s t : String) (h : s.data = t.data) : s = t := by
  cases s; cases t; exact congrArg String.mk h

def frontPartB : List Char → List Char → Bool
  | [], _ => true
  | _ :: _, [] => false
  | a :: as, b :: bs => a == b && frontPartB as bs

theorem frontPartB_or (a1 r1 a2 r2 : List Char) (h : a1 ++ r1 = a2 ++ r2) :
    frontPartB a1 a2 = true ∨ frontPartB a2 a1 = true := by
  induction a1 generalizing a2 with
  | nil => left; rfl
  | cons c cs ih =>
    cases a2 with
    | nil => right; rfl
    | cons d ds =>
      simp only [List.cons_append, List.cons.injEq] at h
      obtain ⟨rfl, htail⟩ := h
      rcases ih ds htail with hc | hc <;> [left; right] <;>
        simp [frontPartB, hc]

theorem backPart_or (l1 b1 l2 b2 : List Char) (h : l1 ++ b1 = l2 ++ b2) :
    frontPartB b1.reverse b2.reverse = true ∨ frontPartB b2.reverse b1.reverse = true := by
  apply frontPartB_or _ l1.reverse _ l2.reverse
  rw [← List.reverse_append, ← List.reverse_append, h]

def hasHole : List Char → Bool
  | [] => false
  | [_] => false
  | c :: d :: rest => (c == '\x7b' && d == '\x7d') || hasHole (d :: rest)

def preHole : List Char → List Char
  | [] => []
  | [c] => [c]
  | c :: d :: rest => if c = '\x7b' ∧ d = '\x7d' then [] else c :: preHole (d :: rest)

def postHole : List Char → List Char
  | [] => []
  | [_] => []
  | c :: d :: rest => if c = '\x7b' ∧ d = '\x7d' then rest else postHole (d :: rest)

theorem pyFormat_nohole : ∀ (l arg : List Char), hasHole l = false → pyFormat l arg = l := by
  intro l
  induction l with
  | nil => intro arg h; rfl
  | cons c rest ih =>
    intro arg h
    cases rest with
    | nil => rfl
    | cons d rest2 =>
      simp only [hasHole, Bool.or_eq_false_iff, Bool.and_eq_false_iff] at h
      have hcd : ¬(c = '\x7b' ∧ d = '\x7d') := by
        intro ⟨h1, h2⟩
        rcases h.1 with hh | hh <;> simp [h1, h2] at hh
      simp only [pyFormat, if_neg hcd]
      rw [ih arg (by simpa [hasHole] using h.2)]

theorem pyFormat_hole : ∀ (l arg : List Char), hasHole l = true →
    hasHole (postHole l) = false →
    pyFormat l arg = preHole l ++ arg ++ postHole l := by
  intro l
  induction l with
  | nil => intro arg h1 _; simp [hasHole] at h1
  | cons c rest ih =>
    intro arg h1 h2
    cases rest with
    | nil => simp [hasHole] at h1
    | cons d rest2 =>
      by_cases hcd : c = '\x7b' ∧ d = '\x7d'
      · have hpost : postHole (c :: d :: rest2) = rest2 := by
          simp [postHole, hcd]
        rw [hpost] at h2
        simp only [pyFormat, if_pos hcd, preHole, postHole, hpost]
        rw [pyFormat_nohole rest2 arg h2]
        simp [hcd]
      · have h1' : hasHole (d :: rest2) = true := by
          simp only [hasHole, Bool.or_eq_true] at h1
          rcases h1 with hh | hh
          · exfalso
            apply hcd
            simp only [Bool.and_eq_true, beq_iff_eq] at hh
            exact hh
          · exact hh
        have hpost : postHole (c :: d :: rest2) = postHole (d :: rest2) := by
          simp [postHole, hcd]
        rw [hpost] at h2
        simp only [pyFormat, if_neg hcd, preHole, hpost]
        rw [ih arg h1' h2]
        simp

example (P i1 i2 : List Char) (h : P ++ i1 = P ++ i2) : i1 = i2 := List.append_cancel_left h
example (i1 i2 S : List Char) (h : i1 ++ S = i2 ++ S) : i1 = i2 := List.append_cancel_right h

/-- The rendered layer target path for template `T` and layer index `i`:
`encoder.` plus the template's text before the hole, the index, and the text
after the hole. -/
def rendered (T i : String) : List Char :=
  ("encoder.".data ++ preHole T.data) ++ i.data ++ postHole T.data

theorem rendered_eq (T i : String) (h1 : hasHole T.data = true)
    (h2 : hasHole (postHole T.data) = false) :
    ("encoder." ++ formatPy T i).data = rendered T i := by
  show "encoder.".data ++ pyFormat T.data i.data = rendered T i
  rw [pyFormat_hole _ _ h1 h2]
  simp [rendered, List.append_assoc]

theorem rendered_inj_same (T i1 i2 : String) (h : rendered T i1 = rendered T i2) :
    i1 = i2 := by
  unfold rendered at h
  exact strExt _ _ (List.append_cancel_left (List.append_cancel_right h))

/-- Decidable separation of two templates: either their rendered prefixes
disagree (neither extends the other), or they agree and the rendered
suffixes disagree from the right. -/
def templatesSeparated (T1 T2 : String) : Bool :=
  (!frontPartB ("encoder.".data ++ preHole T1.data) ("encoder.".data ++ preHole T2.data) &&
   !frontPartB ("encoder.".data ++ preHole T2.data) ("encoder.".data ++ preHole T1.data)) ||
  (("encoder.".data ++ preHole T1.data) == ("encoder.".data ++ preHole T2.data) &&
   !frontPartB (postHole T1.data).reverse (postHole T2.data).reverse &&
   !frontPartB (postHole T2.data).reverse (postHole T1.data).reverse)

theorem rendered_ne (T1 T2 i1 i2 : String) (h : templatesSeparated T1 T2 = true) :
    rendered T1 i1 ≠ rendered T2 i2 := by
  intro heq
  unfold rendered at heq
  unfold templatesSeparated at h
  simp only [Bool.or_eq_true, Bool.and_eq_true, Bool.not_eq_true', beq_iff_eq] at h
  rcases h with ⟨hp1, hp2⟩ | ⟨⟨hpre, hs1⟩, hs2⟩
  · have heq' : ("encoder.".data ++ preHole T1.data) ++ (i1.data ++ postHole T1.data)
        = ("encoder.".data ++ preHole T2.data) ++ (i2.data ++ postHole T2.data) := by
      rw [← List.append_assoc, ← List.append_assoc]
      exact heq
    rcases frontPartB_or _ _ _ _ heq' with hc | hc
    · rw [hc] at hp1; exact Bool.noConfusion hp1
    · rw [hc] at hp2; exact Bool.noConfusion hp2
  · rw [hpre] at heq
    have h3 : i1.data ++ postHole T1.data = i2.data ++ postHole T2.data := by
      have heq' : ("encoder.".data ++ preHole T2.data) ++ (i1.data ++ postHole T1.data)
          = ("encoder.".data ++ preHole T2.data) ++ (i2.data ++ postHole T2.data) := by
        rw [← List.append_assoc, ← List.append_assoc]
        exact heq
      exact List.append_cancel_left heq'
    rcases backPart_or _ _ _ _ h3 with hc | hc
    · rw [hc] at hs1; exact Bool.noConfusion hs1
    · rw [hc] at hs2; exact Bool.noConfusion hs2

/-- Decidable separation of a fixed (global or pooler) target path from all
rendered layer paths of a template: neither is a front part of the other. -/
def fixedSeparated (V T : String) : Bool :=
  !frontPartB V.data ("encoder.".data ++ preHole T.data) &&
  !frontPartB ("encoder.".data ++ preHole T.data) V.data

theorem fixed_ne_rendered (V T i : String) (h : fixedSeparated V T = true) :
    V.data ≠ rendered T i := by
  intro heq
  unfold fixedSeparated at h
  simp only [Bool.and_eq_true, Bool.not_eq_true'] at h
  have heq' : V.data ++ [] = ("encoder.".data ++ preHole T.data) ++ (i.data ++ postHole T.data) := by
    rw [List.append_nil]
    unfold rendered at heq
    exact heq.trans (List.append_assoc _ _ _)
  rcases frontPartB_or _ _ _ _ heq' with hc | hc
  · rw [hc] at h
    exact Bool.noConfusion h.1
  · rw [hc] at h
    exact Bool.noConfusion h.2

theorem lookup_mem {n v : String} : ∀ {l : List (String × String)},
    List.lookup n l = some v → (n, v) ∈ l := by
  intro l
  induction l with
  | nil => intro h; simp [List.lookup] at h
  | cons e rest ih =>
    intro h
    obtain ⟨k, w⟩ := e
    cases hk : n == k
    · simp only [List.lookup, hk] at h
      exact List.mem_cons_of_mem _ (ih h)
    · simp only [List.lookup, hk] at h
      injection h with hw
      have hnk : n = k := by simpa using hk
      subst hnk
      subst hw
      exact List.mem_cons_self _ _

theorem resolve_assign_cases (n p : String) (t : Transform)
    (h : resolve n = .assign p t) :
    ((n, p) ∈ global_tensor_map ∧ t = .identity) ∨
    (n, p) ∈ pooler_map ∨
    (∃ seg tmpl, (splitSlash n)[2]? = some seg ∧
      (((joinSlash ((splitSlash n).drop 3), tmpl) ∈ layer_tensor_map ∧ t = .identity) ∨
       ((joinSlash ((splitSlash n).drop 3), tmpl) ∈ layer_transpose_map ∧ t = .transposed)) ∧
      p = "encoder." ++ formatPy tmpl (dropPy seg 6)) := by
  by_cases hs : skipName n
  · have hr : resolve n = .skip := by unfold resolve; rw [hs]; rfl
    rw [hr] at h
    exact absurd h (by simp)
  · rw [Bool.not_eq_true] at hs
    rcases hG : List.lookup n global_tensor_map with _ | v
    · rcases hP : List.lookup n pooler_map with _ | v
      · rcases hseg : (splitSlash n)[2]? with _ | seg
        · have hr : resolve n = .indexOOR := by simp [resolve, hs, hG, hP, hseg]
          rw [hr] at h
          exact absurd h (by simp)
        · rcases hT : List.lookup (joinSlash ((splitSlash n).drop 3)) layer_tensor_map
            with _ | tmpl
          · rcases hTT : List.lookup (joinSlash ((splitSlash n).drop 3)) layer_transpose_map
              with _ | tmpl
            · have hr : resolve n = .unresolved n := by
                simp [resolve, hs, hG, hP, hseg, hT, hTT]
              rw [hr] at h
              exact absurd h (by simp)
            · have hr : resolve n
                  = .assign ("encoder." ++ formatPy tmpl (dropPy seg 6)) .transposed := by
                simp [resolve, hs, hG, hP, hseg, hT, hTT]
              rw [hr] at h
              injection h with h1 h2
              exact Or.inr (Or.inr ⟨seg, tmpl, rfl,
                Or.inr ⟨lookup_mem hTT, h2.symm⟩, h1.symm⟩)
          · have hr : resolve n
                = .assign ("encoder." ++ formatPy tmpl (dropPy seg 6)) .identity := by
              simp [resolve, hs, hG, hP, hseg, hT]
            rw [hr] at h
            injection h with h1 h2
            exact Or.inr (Or.inr ⟨seg, tmpl, rfl,
              Or.inl ⟨lookup_mem hT, h2.symm⟩, h1.symm⟩)
      · by_cases hb : endsWithPy n "bias"
        · have hr : resolve n = .assign v .identity := by simp [resolve, hs, hG, hP, hb]
          rw [hr] at h
          injection h with h1 h2
          exact Or.inr (Or.inl (lookup_mem (h1 ▸ hP)))
        · rw [Bool.not_eq_true] at hb
          have hr : resolve n = .assign v .transposed := by simp [resolve, hs, hG, hP, hb]
          rw [hr] at h
          injection h with h1 h2
          exact Or.inr (Or.inl (lookup_mem (h1 ▸ hP)))
    · have hr : resolve n = .assign v .identity := by simp [resolve, hs, hG]
      rw [hr] at h
      injection h with h1 h2
      exact Or.inl ⟨lookup_mem (h1 ▸ hG), h2.symm⟩

/-- Every template of the two layer tables has exactly one hole: a hole is
present and none remains after it. -/
theorem layer_templates_wellformed :
    ∀ e ∈ layer_tensor_map ++ layer_transpose_map,
      hasHole e.2.data = true ∧ hasHole (postHole e.2.data) = false := by decide

/-- Within the global and pooler tables, the target value determines the
source key. -/
theorem fixed_value_determines_key :
    ∀ e1 ∈ global_tensor_map ++ pooler_map, ∀ e2 ∈ global_tensor_map ++ pooler_map,
      e1.2 = e2.2 → e1.1 = e2.1 := by decide

/-- Any two entries of the combined layer tables either have separated
templates or are the same entry. -/
theorem layer_entries_separated_or_equal :
    ∀ e1 ∈ layer_tensor_map ++ layer_transpose_map,
      ∀ e2 ∈ layer_tensor_map ++ layer_transpose_map,
      templatesSeparated e1.2 e2.2 = true ∨ (e1.2 = e2.2 ∧ e1.1 = e2.1) := by decide

/-- Every global or pooler target is separated from every layer template. -/
theorem fixed_separated_from_layers :
    ∀ v ∈ global_tensor_map ++ pooler_map, ∀ e ∈ layer_tensor_map ++ layer_transpose_map,
      fixedSeparated v.2 e.2 = true := by decide

/-- No template value is shared between the plain and the transpose layer
tables. -/
theorem tensor_transpose_values_disjoint :
    ∀ e1 ∈ layer_tensor_map, ∀ e2 ∈ layer_transpose_map, ¬ e1.2 = e2.2 := by decide

theorem fixed_maps_inj (n1 n2 p : String)
    (h1 : (n1, p) ∈ global_tensor_map ∨ (n1, p) ∈ pooler_map)
    (h2 : (n2, p) ∈ global_tensor_map ∨ (n2, p) ∈ pooler_map) : n1 = n2 := by
  have hm1 : (n1, p) ∈ global_tensor_map ++ pooler_map := by
    rcases h1 with h | h
    · exact List.mem_append_left _ h
    · exact List.mem_append_right _ h
  have hm2 : (n2, p) ∈ global_tensor_map ++ pooler_map := by
    rcases h2 with h | h
    · exact List.mem_append_left _ h
    · exact List.mem_append_right _ h
  exact fixed_value_determines_key _ hm1 _ hm2 rfl

theorem fixed_layer_absurd (n p sfx T idx : String)
    (hm : (n, p) ∈ global_tensor_map ∨ (n, p) ∈ pooler_map)
    (hT : (sfx, T) ∈ layer_tensor_map ++ layer_transpose_map)
    (hp : p = "encoder." ++ formatPy T idx) : False := by
  have hm' : (n, p) ∈ global_tensor_map ++ pooler_map := by
    rcases hm with h | h
    · exact List.mem_append_left _ h
    · exact List.mem_append_right _ h
  have hwf := layer_templates_wellformed _ hT
  have hsep := fixed_separated_from_layers _ hm' _ hT
  exact fixed_ne_rendered p T idx hsep
    ((congrArg String.data hp).trans (rendered_eq _ _ hwf.1 hwf.2))

theorem layer_layer_main (sfx1 sfx2 T1 T2 i1 i2 : String)
    (hm1 : (sfx1, T1) ∈ layer_tensor_map ++ layer_transpose_map)
    (hm2 : (sfx2, T2) ∈ layer_tensor_map ++ layer_transpose_map)
    (heq : ("encoder." ++ formatPy T1 i1) = ("encoder." ++ formatPy T2 i2)) :
    T1 = T2 ∧ sfx1 = sfx2 ∧ i1 = i2 := by
  have hwf1 := layer_templates_wellformed _ hm1
  have hwf2 := layer_templates_wellformed _ hm2
  have hd : rendered T1 i1 = rendered T2 i2 :=
    (rendered_eq _ _ hwf1.1 hwf1.2).symm.trans
      ((congrArg String.data heq).trans (rendered_eq _ _ hwf2.1 hwf2.2))
  rcases layer_entries_separated_or_equal _ hm1 _ hm2 with hsep | ⟨hTT, hss⟩
  · exact absurd hd (rendered_ne _ _ _ _ hsep)
  · have hTT2 : T1 = T2 := hTT
    have hss2 : sfx1 = sfx2 := hss
    refine ⟨hTT2, hss2, ?_⟩
    rw [hTT2] at hd
    exact rendered_inj_same _ _ _ hd

/-- C9 amended: the resolution mapping is injective into target paths up to
the parsed layer index and suffix.  Whenever two names resolve to
assignments at the same target path, either the names are equal (always the
case for global and pooler targets, which are each assigned by exactly one
name), or both names are layer-form names with the same transform, the same
parsed suffix (`/`-join of the segments from the fourth onward) and the
same parsed layer index (characters of the third segment after position 6)
— they can differ only in the first two segments and in the first six
characters of the third.  In particular, over canonical checkpoint names
`bert/encoder/layer_<i>/<suffix>`, distinct names never collide on a
target path. -/
theorem assigned_target_injective_up_to_parse (n1 n2 p : String) (t1 t2 : Transform)
    (h1 : resolve n1 = .assign p t1) (h2 : resolve n2 = .assign p t2) :
    n1 = n2 ∨
    (t1 = t2 ∧
     joinSlash ((splitSlash n1).drop 3) = joinSlash ((splitSlash n2).drop 3) ∧
     dropPy (((splitSlash n1)[2]?).getD "") 6 = dropPy (((splitSlash n2)[2]?).getD "") 6) := by
  rcases resolve_assign_cases n1 p t1 h1 with ⟨hm1, _⟩ | hm1 | ⟨seg1, T1, hseg1, hcase1, hp1⟩
  · rcases resolve_assign_cases n2 p t2 h2 with ⟨hm2, _⟩ | hm2 | ⟨seg2, T2, hseg2, hcase2, hp2⟩
    · exact Or.inl (fixed_maps_inj n1 n2 p (Or.inl hm1) (Or.inl hm2))
    · exact Or.inl (fixed_maps_inj n1 n2 p (Or.inl hm1) (Or.inr hm2))
    · have hm2' : (joinSlash ((splitSlash n2).drop 3), T2)
          ∈ layer_tensor_map ++ layer_transpose_map := by
        rcases hcase2 with ⟨hm, _⟩ | ⟨hm, _⟩
        · exact List.mem_append_left _ hm
        · exact List.mem_append_right _ hm
      exact (fixed_layer_absurd n1 p _ T2 _ (Or.inl hm1) hm2' hp2).elim
  · rcases resolve_assign_cases n2 p t2 h2 with ⟨hm2, _⟩ | hm2 | ⟨seg2, T2, hseg2, hcase2, hp2⟩
    · exact Or.inl (fixed_maps_inj n1 n2 p (Or.inr hm1) (Or.inl hm2))
    · exact Or.inl (fixed_maps_inj n1 n2 p (Or.inr hm1) (Or.inr hm2))
    · have hm2' : (joinSlash ((splitSlash n2).drop 3), T2)
          ∈ layer_tensor_map ++ layer_transpose_map := by
        rcases hcase2 with ⟨hm, _⟩ | ⟨hm, _⟩
        · exact List.mem_append_left _ hm
        · exact List.mem_append_right _ hm
      exact (fixed_layer_absurd n1 p _ T2 _ (Or.inr hm1) hm2' hp2).elim
  · have hm1' : (joinSlash ((splitSlash n1).drop 3), T1)
        ∈ layer_tensor_map ++ layer_transpose_map := by
      rcases hcase1 with ⟨hm, _⟩ | ⟨hm, _⟩
      · exact List.mem_append_left _ hm
      · exact List.mem_append_right _ hm
    rcases resolve_assign_cases n2 p t2 h2 with ⟨hm2, _⟩ | hm2 | ⟨seg2, T2, hseg2, hcase2, hp2⟩
    · exact (fixed_layer_absurd n2 p _ T1 _ (Or.inl hm2) hm1' hp1).elim
    · exact (fixed_layer_absurd n2 p _ T1 _ (Or.inr hm2) hm1' hp1).elim
    · have hm2' : (joinSlash ((splitSlash n2).drop 3), T2)
          ∈ layer_tensor_map ++ layer_transpose_map := by
        rcases hcase2 with ⟨hm, _⟩ | ⟨hm, _⟩
        · exact List.mem_append_left _ hm
        · exact List.mem_append_right _ hm
      obtain ⟨hT, hsfx, hi⟩ := layer_layer_main _ _ T1 T2 _ _ hm1' hm2' (hp1.symm.trans hp2)
      right
      refine ⟨?_, hsfx, ?_⟩
      · rcases hcase1 with ⟨hmm1, ht1⟩ | ⟨hmm1, ht1⟩ <;>
          rcases hcase2 with ⟨hmm2, ht2⟩ | ⟨hmm2, ht2⟩
        · exact ht1.trans ht2.symm
        · exact (tensor_transpose_values_disjoint _ hmm1 _ hmm2 hT).elim
        · exact (tensor_transpose_values_disjoint _ hmm2 _ hmm1 hT.symm).elim
        · exact ht1.trans ht2.symm
      · rw [hseg1, hseg2]
        exact hi

/-- Witness for the amended C9: two distinct names assigning the same
target path, shown to agree on parsed suffix and layer index. -/
theorem assigned_target_injective_up_to_parse_witness :
    ("bert/encoder/layer_0/output/dense/bias" : String) = "z/z/layer_0/output/dense/bias" ∨
    (Transform.identity = Transform.identity ∧
     joinSlash ((splitSlash "bert/encoder/layer_0/output/dense/bias").drop 3)
       = joinSlash ((splitSlash "z/z/layer_0/output/dense/bias").drop 3) ∧
     dropPy (((splitSlash "bert/encoder/layer_0/output/dense/bias")[2]?).getD "") 6
       = dropPy (((splitSlash "z/z/layer_0/output/dense/bias")[2]?).getD "") 6) :=
  assigned_target_injective_up_to_parse "bert/encoder/layer_0/output/dense/bias"
    "z/z/layer_0/output/dense/bias" "encoder.poswise_networks.0._layers.2.bias"
    .identity .identity (by decide) (by decide)
